import Mathlib

/-!
Verification of the askdir RAG pipeline (chunking, embedding adapter,
retrieval, and the server rebuild coordinator) against its specification.

The Python sources are shallowly embedded: strings become `List Char` or
`String`, Python `int` becomes `Int`, fallible calls become `Option` or
`Except`, the `while` loop of `chunk_text` is modelled with explicit fuel
(a `none` result means the loop never terminates), and external
collaborators (file system scan, faiss, the embedding HTTP client) are
parameters supplied by the caller.
-/

/-! ## Python string primitives -/

/-- Membership in the ASCII whitespace set that Python `str.strip` removes:
space, tab, newline, carriage return, vertical tab, form feed. -/
def isPySpace (c : Char) : Bool :=
  c = ' ' || c = Char.ofNat 9 || c = Char.ofNat 10 ||
  c = Char.ofNat 13 || c = Char.ofNat 11 || c = Char.ofNat 12

/-- Python `s.strip()`: drop leading and trailing whitespace. -/
def pyStrip (s : String) : String :=
  String.mk (((s.data.dropWhile isPySpace).reverse.dropWhile isPySpace).reverse)

/-- The normalization `text.replace(chr 10, chr 32)` applied by
`get_embeddings` and `retrieve_context` before calling the embedding
service: every newline becomes a space.  Since the pattern is a single
character this is a character-wise map. -/
def cleanText (s : String) : String :=
  String.mk (s.data.map fun c => if c = Char.ofNat 10 then ' ' else c)

/-- Resolution of one Python slice endpoint for a sequence of length `len`:
negative endpoints count from the end, then everything is clamped into
`[0, len]`. -/
def pyIdx (len : Nat) (i : Int) : Nat :=
  if i < 0 then min ((len : Int) + i).toNat len else min i.toNat len

/-- Python slice `s[a:b]` on a character list. -/
def pySlice (s : List Char) (a b : Int) : List Char :=
  (s.take (pyIdx s.length b)).drop (pyIdx s.length a)

/-- Nat-indexed slice `[a, b)` of a character list; the form `pySlice`
takes on non-negative in-range endpoints. -/
def sliceN (s : List Char) (a b : Nat) : List Char :=
  (s.take b).drop a

/-- Python `l[i]` for an arbitrary `Int` index: negative indices count from
the end, and `none` models the `IndexError` raised when the resolved index
is out of range. -/
def pyGetElem {β : Type} (l : List β) (i : Int) : Option β :=
  let j := if i < 0 then i + l.length else i
  if 0 ≤ j then l.get? j.toNat else none

/-! ## Data model (rag/chunking.py, rag/index.py) -/

/-- A scanned document as produced by `load_files` (rag/ingest.py): a dict
with keys `path` and `content`. -/
structure Doc where
  path : String
  content : List Char
deriving DecidableEq, Repr

/-- A chunk as produced by `chunk_text` (rag/chunking.py): a dict with keys
`text` and `source`. -/
structure Chunk where
  text : List Char
  source : String
deriving DecidableEq, Repr

/-- The `while start < total_len` loop body of `chunk_text`
(rag/chunking.py lines 11-25), with explicit fuel.  A `none` result means
the fuel ran out, i.e. the Python loop runs at least that many iterations;
`∀ fuel, _ = none` means the loop never terminates.  Each iteration emits
`text[start : min (start + chunk_size) total_len]` tagged with the source
path, then advances `start` by `chunk_size - overlap` and breaks once
`start ≥ total_len`. -/
def chunkDocLoop (chunk_size overlap : Int) (src : String) (text : List Char) :
    Int → Nat → Option (List Chunk)
  | _, 0 => none
  | start, fuel + 1 =>
    if start < (text.length : Int) then
      let e := min (start + chunk_size) (text.length : Int)
      let c : Chunk := ⟨pySlice text start e, src⟩
      let next := start + (chunk_size - overlap)
      if (text.length : Int) ≤ next then
        some [c]
      else
        match chunkDocLoop chunk_size overlap src text next fuel with
        | none => none
        | some rest => some (c :: rest)
    else
      some []

/-- `chunk_text` (rag/chunking.py): runs the window loop over each document
in order and concatenates the chunk lists.  `none` propagates fuel
exhaustion (the Python function would still be inside its loop). -/
def chunk_text (documents : List Doc) (chunk_size overlap : Int) (fuel : Nat) :
    Option (List Chunk) :=
  match documents with
  | [] => some []
  | d :: ds =>
    match chunkDocLoop chunk_size overlap d.path d.content 0 fuel with
    | none => none
    | some cs =>
      match chunk_text ds chunk_size overlap fuel with
      | none => none
      | some rest => some (cs ++ rest)

/-! ## Chunk-geometry helpers (specification side)

`chunk_text` emits the window starts `0, stride, 2*stride, ...` while they
stay below the document length, where `stride = chunk_size - overlap`.
`spanStarts` computes that list of starts and `spanUnion` the set of text
positions covered by the corresponding windows; the characterization
theorem ties them to `chunk_text`. -/

/-- The window start offsets emitted by the chunking loop: from `start`,
step `stride`, while below `len` (empty when `stride = 0`, matching the
guard needed for termination). -/
def spanStarts (stride len start : Nat) : List Nat :=
  if _h : 0 < stride ∧ start < len then
    start :: spanStarts stride len (start + stride)
  else []
termination_by len - start
decreasing_by omega

/-- The set of character positions covered by the windows
`[a, min (a + size) len)` for `a` in `starts`. -/
def spanUnion (size len : Nat) (starts : List Nat) : Finset Nat :=
  starts.foldr (fun a acc => Finset.Ico a (min (a + size) len) ∪ acc) ∅

/-! ## Embedding adapter (rag/index.py, `get_embeddings`) -/

/-- `get_embeddings` (rag/index.py lines 12-34).  The external call
`client.embeddings.create(input=[clean_text], model=model).data[0].embedding`
is the parameter `create : String → Option α` (`none` models a raised
exception, `α` the vector type).  Texts are processed strictly in order;
each is newline-normalized before submission; on the first failing item the
exception is re-raised (`raise e`), so the whole call yields `none` and no
partial list escapes. -/
def get_embeddings {α : Type} (create : String → Option α) :
    List String → Option (List α)
  | [] => some []
  | t :: ts =>
    match create (cleanText t) with
    | none => none
    | some emb =>
      match get_embeddings create ts with
      | none => none
      | some rest => some (emb :: rest)

/-! ## Retrieval (rag/retrieve.py, `retrieve_context`) -/

/-- The result-accumulation loop of `retrieve_context`
(rag/retrieve.py lines 18-21): for each raw search position keep
`metadata[idx]` when `idx != -1 and idx < len(metadata)`.  A `none` result
models an `IndexError` from `metadata[idx]` (possible only for an index
below `-len`), which the surrounding `try` converts into an empty result. -/
def gatherResults {β : Type} (metadata : List β) : List Int → Option (List β)
  | [] => some []
  | idx :: rest =>
    if idx ≠ -1 ∧ idx < (metadata.length : Int) then
      match pyGetElem metadata idx with
      | none => none
      | some m =>
        match gatherResults metadata rest with
        | none => none
        | some ms => some (m :: ms)
    else gatherResults metadata rest

/-- `retrieve_context` (rag/retrieve.py lines 5-26).  The embedding call on
the newline-normalized query is the parameter `embedQ` (`none` = raised),
`index.search` is the parameter `search` returning the raw position row
`indices[0]` (`none` = raised).  Any exception inside the `try` produces
the empty list instead of propagating. -/
def retrieve_context {α β : Type} (embedQ : String → Option α)
    (search : α → Nat → Option (List Int)) (query : String)
    (metadata : List β) (k : Nat) : List β :=
  match embedQ (cleanText query) with
  | none => []
  | some qv =>
    match search qv k with
    | none => []
    | some idxs =>
      match gatherResults metadata idxs with
      | none => []
      | some rs => rs

/-! ## Configuration (rag/config.py) -/

/-- `RAGConfig` (rag/config.py lines 11-24). -/
structure RAGConfig where
  folder_path : String
  chunk_size : Int
  overlap : Int
  embedding_model : String
  chat_model : String
  ignore_dirs : List String
  client_base_url : String
  client_api_key : String
deriving DecidableEq, Repr

/-- `save_config` (rag/config.py lines 35-38): writes the config as
`rag.yaml` in the working directory.  The result is the new contents of
that file. -/
def save_config (config : RAGConfig) : Option RAGConfig :=
  some config

/-! ## Server state and rebuild coordinator (rag/server.py) -/

/-- The four values taken by `state.rebuild_status`. -/
inductive RebuildStatus where
  | idle
  | running
  | success
  | error
deriving DecidableEq, Repr

/-- The module-level `State` of rag/server.py (lines 19-27), extended with
`disk_config`, the contents of the `rag.yaml` file that `save_config`
writes.  `ι` is the (opaque) faiss index type; `client` is the OpenAI
client handle, relevant only through its presence. -/
structure ServerState (ι : Type) where
  config : Option RAGConfig
  index : Option ι
  metadata : Option (List Chunk)
  client : Option Unit
  rebuild_status : RebuildStatus
  rebuild_message : String
  disk_config : Option RAGConfig

/-- Outcomes of the external effects performed by `run_rebuild_task`:
`load_files` (rag/ingest.py; may raise, e.g. on a bad path),
`build_index` (rag/index.py; wraps the embedding client, faiss and the
on-disk index writes; may raise, e.g. on an embedding failure), and
`load_faiss_index` (rag/index.py; reads the on-disk pair; may raise).
An `Except.error` carries `str(e)` of the raised exception. -/
structure RebuildEnv (ι : Type) where
  load_files : String → List String → Except String (List Doc)
  build_index : List Chunk → Except String Unit
  load_faiss_index : Except String (Option ι × Option (List Chunk))

/-- Steps 2-5 of `run_rebuild_task` (rag/server.py lines 72-93) together
with the `except` handler (lines 95-98): scan, chunk, index, reload, and
swap in the reloaded pair only on full success.  Reading
`state.config.folder_path` when `config` is `None` raises an
`AttributeError`, which the handler turns into the `error` state.  A `none`
result means the call never returns (the chunking loop diverges). -/
def runRebuildSteps {ι : Type} (env : RebuildEnv ι) (fuel : Nat)
    (s : ServerState ι) : Option (ServerState ι) :=
  match s.config with
  | none =>
    some { s with rebuild_status := RebuildStatus.error,
                  rebuild_message := "Error: NoneType object has no attribute folder_path" }
  | some cfg =>
    match env.load_files cfg.folder_path cfg.ignore_dirs with
    | Except.error e =>
      some { s with rebuild_status := RebuildStatus.error,
                    rebuild_message := "Error: " ++ e }
    | Except.ok docs =>
      if docs = [] then
        some { s with rebuild_status := RebuildStatus.error,
                      rebuild_message := "No valid documents found." }
      else
        match chunk_text docs cfg.chunk_size cfg.overlap fuel with
        | none => none
        | some chunks =>
          match env.build_index chunks with
          | Except.error e =>
            some { s with rebuild_status := RebuildStatus.error,
                          rebuild_message := "Error: " ++ e }
          | Except.ok _ =>
            match env.load_faiss_index with
            | Except.error e =>
              some { s with rebuild_status := RebuildStatus.error,
                            rebuild_message := "Error: " ++ e }
            | Except.ok (idx, md) =>
              some { s with index := idx, metadata := md,
                            rebuild_status := RebuildStatus.success,
                            rebuild_message := "Index rebuilt successfully!" }

/-- `run_rebuild_task` (rag/server.py lines 61-98).  Sets the status to
`running`, then (step 1, lines 66-70) if the request carried a truthy
folder path whose `strip()` is also truthy, overwrites
`config.folder_path` with the stripped path and persists the config via
`save_config` before anything is scanned; then runs the remaining steps. -/
def run_rebuild_task {ι : Type} (env : RebuildEnv ι) (fuel : Nat)
    (folder_path : Option String) (s0 : ServerState ι) :
    Option (ServerState ι) :=
  let s1 := { s0 with rebuild_status := RebuildStatus.running,
                      rebuild_message := "Starting rebuild..." }
  match folder_path with
  | some f =>
    if f ≠ "" ∧ pyStrip f ≠ "" then
      match s1.config with
      | none =>
        -- `state.config.folder_path = ...` raises AttributeError
        some { s1 with rebuild_status := RebuildStatus.error,
                       rebuild_message := "Error: NoneType object has no attribute folder_path" }
      | some cfg =>
        let cfg2 := { cfg with folder_path := pyStrip f }
        runRebuildSteps env fuel
          { s1 with config := some cfg2,
                    disk_config := save_config cfg2,
                    rebuild_message := "Updated config to: " ++ pyStrip f }
    else
      runRebuildSteps env fuel s1
  | none => runRebuildSteps env fuel s1

/-- `trigger_rebuild` (rag/server.py lines 101-110): reject with HTTP 400
while a rebuild is running; reject with HTTP 400 when no config is loaded
and the request carries no truthy folder path; otherwise schedule
`run_rebuild_task` with the request path and answer `started`.  `Except.ok`
carries the folder path handed to the scheduled task. -/
def trigger_rebuild (status : RebuildStatus) (config : Option RAGConfig)
    (folder_path : Option String) : Except (Nat × String) (Option String) :=
  if status = RebuildStatus.running then
    Except.error (400, "Rebuild already in progress")
  else if config = none ∧ (folder_path = none ∨ folder_path = some "") then
    Except.error (400, "No config found. Please provide folder path.")
  else
    Except.ok folder_path

/-- The admission guard of `chat_endpoint` (rag/server.py lines 116-122):
`some (code, detail)` is the `HTTPException` rejecting the query, `none`
means the query proceeds to retrieval. -/
def chat_endpoint_guard {γ ι : Type} (status : RebuildStatus)
    (client : Option γ) (index : Option ι) : Option (Nat × String) :=
  if status = RebuildStatus.running then
    some (503, "Index is currently rebuilding. Please wait.")
  else if client.isNone || index.isNone then
    some (500, "RAG system not initialized. Please rebuild index.")
  else
    none

/-! ## Basic unfolding lemmas -/

/-- One-step unfolding of `spanStarts`. -/
theorem spanStarts_eq (stride len start : Nat) :
    spanStarts stride len start =
      if 0 < stride ∧ start < len then
        start :: spanStarts stride len (start + stride)
      else [] := by
  rw [spanStarts]
  exact dite_eq_ite

/-- With `chunk_size = overlap` the window stride is zero, so on a
non-empty document the loop re-visits `start = 0` forever: no amount of
fuel makes it return. -/
theorem chunkDocLoop_zero_stride_stuck (fuel : Nat) :
    chunkDocLoop 1 1 "p" ['a', 'b'] 0 fuel = none := by
  induction fuel with
  | zero => rfl
  | succ n ih =>
    simp only [chunkDocLoop]
    norm_num [ih]

/-- Claim C2: the spec requires `chunk_text` to fail fast when
`overlap ≥ chunk_size`; the code has no such guard, and with
`chunk_size = 1, overlap = 1` on the document `ab` the window never
advances, so the call diverges (returns for no fuel) instead of
terminating with an error. -/
theorem chunk_text_overlap_ge_size_diverges (fuel : Nat) :
    chunk_text [⟨"p", ['a', 'b']⟩] 1 1 fuel = none := by
  simp only [chunk_text, chunkDocLoop_zero_stride_stuck]

/-! ## Claim C1: embedding is length- and order-preserving, all-or-nothing -/

/-- Claim C1: whenever `get_embeddings` returns a list, it has the same
length as the input and its `i`-th entry is the embedding of the
(newline-normalized) `i`-th input text; and if the embedding call fails on
any input item, the whole call fails, so a partial list is never
returned. -/
theorem get_embeddings_aligned_or_aborts {α : Type} (create : String → Option α)
    (texts : List String) :
    (∀ res, get_embeddings create texts = some res →
      res.length = texts.length ∧
      ∀ i, i < texts.length →
        ∃ t v, texts.get? i = some t ∧ res.get? i = some v ∧
          create (cleanText t) = some v) ∧
    ((∃ t ∈ texts, create (cleanText t) = none) →
      get_embeddings create texts = none) := by
  induction texts with
  | nil =>
    constructor
    · intro res h
      simp only [get_embeddings, Option.some.injEq] at h
      subst h
      exact ⟨rfl, fun i hi => absurd hi (Nat.not_lt_zero i)⟩
    · rintro ⟨t, ht, -⟩
      exact absurd ht (List.not_mem_nil t)
  | cons t ts ih =>
    constructor
    · intro res h
      simp only [get_embeddings] at h
      cases hc : create (cleanText t) with
      | none => rw [hc] at h; exact absurd h (by simp)
      | some emb =>
        rw [hc] at h
        cases hr : get_embeddings create ts with
        | none => rw [hr] at h; exact absurd h (by simp)
        | some rest =>
          rw [hr] at h
          simp only [Option.some.injEq] at h
          subst h
          obtain ⟨hlen, hidx⟩ := ih.1 rest hr
          refine ⟨by simp [hlen], ?_⟩
          intro i hi
          cases i with
          | zero => exact ⟨t, emb, rfl, rfl, hc⟩
          | succ j =>
            obtain ⟨u, v, hu, hv, huv⟩ := hidx j (by simpa using hi)
            exact ⟨u, v, by simpa using hu, by simpa using hv, huv⟩
    · rintro ⟨u, hu, hcu⟩
      simp only [get_embeddings]
      rcases List.mem_cons.1 hu with rfl | hmem
      · rw [hcu]
      · cases hc : create (cleanText t) with
        | none => rfl
        | some emb => rw [ih.2 ⟨u, hmem, hcu⟩]

/-- Concrete instantiation of `get_embeddings_aligned_or_aborts`: with an
embedding service that fails exactly on the text `bad`, the all-success
call is aligned position by position and the call containing `bad`
returns nothing at all. -/
theorem get_embeddings_aligned_or_aborts_witness :
    (get_embeddings (fun s => if s = "bad" then none else some s.length)
        ["ab", "c"] = some [2, 1]) ∧
    ((["ab", "c"] : List String).get? 0 = some "ab" ∧
      ([2, 1] : List Nat).get? 0 = some 2) ∧
    get_embeddings (fun s => if s = "bad" then none else some s.length)
        ["ab", "bad"] = none := by
  refine ⟨rfl, ⟨rfl, rfl⟩, ?_⟩
  exact (get_embeddings_aligned_or_aborts
      (fun s => if s = "bad" then none else some s.length) ["ab", "bad"]).2
    ⟨"bad", by simp, by decide⟩

/-! ## Claim C9: query guards -/

/-- Claim C9: a query while a rebuild is running is rejected with the busy
signal (HTTP 503); a query when no index is loaded (and no rebuild is
running) is rejected with the not-initialized signal (HTTP 500); the two
signals are distinct. -/
theorem chat_endpoint_guard_signals {γ ι : Type} (client : Option γ)
    (index : Option ι) (s : RebuildStatus) :
    chat_endpoint_guard RebuildStatus.running client index
        = some (503, "Index is currently rebuilding. Please wait.") ∧
    (s ≠ RebuildStatus.running → index = none →
      chat_endpoint_guard s client index
        = some (500, "RAG system not initialized. Please rebuild index.")) ∧
    ((503, "Index is currently rebuilding. Please wait.")
        ≠ ((500, "RAG system not initialized. Please rebuild index.") : Nat × String)) := by
  refine ⟨rfl, ?_, ?_⟩
  · intro hs hidx
    simp [chat_endpoint_guard, hs, hidx]
  · intro h
    have : (503 : Nat) = 500 := congrArg Prod.fst h
    omega

/-- Witness for `chat_endpoint_guard_signals`: with no client, no index and
status `idle` (a server started before any index was ever built), the
query is rejected with the not-initialized signal. -/
theorem chat_endpoint_guard_signals_witness :
    chat_endpoint_guard RebuildStatus.idle (none : Option Unit) (none : Option Unit)
      = some (500, "RAG system not initialized. Please rebuild index.") :=
  (chat_endpoint_guard_signals (none : Option Unit) (none : Option Unit)
    RebuildStatus.idle).2.1 (by decide) rfl

/-! ## Claim C4: rebuild trigger guard -/

/-- Claim C4 (amended): a `start_rebuild` request while the status is
`running` is always rejected with the already-in-progress signal; in any
other status the request is accepted exactly when a config is loaded or
the request carries a truthy folder path, and otherwise (no config, no
path) it is rejected with the no-config signal even after a terminal
state. -/
theorem trigger_rebuild_guard (st : RebuildStatus) (config : Option RAGConfig)
    (fp : Option String) :
    (st = RebuildStatus.running →
      trigger_rebuild st config fp
        = Except.error (400, "Rebuild already in progress")) ∧
    (st ≠ RebuildStatus.running →
      (config ≠ none ∨ (fp ≠ none ∧ fp ≠ some "")) →
      trigger_rebuild st config fp = Except.ok fp) ∧
    (st ≠ RebuildStatus.running → config = none →
      (fp = none ∨ fp = some "") →
      trigger_rebuild st config fp
        = Except.error (400, "No config found. Please provide folder path.")) := by
  refine ⟨?_, ?_, ?_⟩
  · intro h; simp [trigger_rebuild, h]
  · intro hs hc
    have : ¬ (config = none ∧ (fp = none ∨ fp = some "")) := by tauto
    simp [trigger_rebuild, hs, this]
  · intro hs hc hfp
    simp [trigger_rebuild, hs, hc, hfp]

/-- Counterexample to claim C4 as stated: in the terminal state `error`,
with no config loaded and no folder path supplied, a new `start_rebuild`
request is rejected (with the no-config signal), not accepted. -/
theorem trigger_rebuild_terminal_not_always_accepted :
    trigger_rebuild RebuildStatus.error none none
      = Except.error (400, "No config found. Please provide folder path.") := by
  rfl

/-- Witness for `trigger_rebuild_guard`: a request during `running` is
rejected as already in progress, and a request in `success` state with a
truthy folder path is accepted. -/
theorem trigger_rebuild_guard_witness :
    trigger_rebuild RebuildStatus.running none (some "docs")
        = Except.error (400, "Rebuild already in progress") ∧
    trigger_rebuild RebuildStatus.success none (some "docs")
        = Except.ok (some "docs") :=
  ⟨(trigger_rebuild_guard RebuildStatus.running none (some "docs")).1 rfl,
   (trigger_rebuild_guard RebuildStatus.success none (some "docs")).2.1
     (by decide) (Or.inr ⟨by simp, by simp⟩)⟩

/-! ## Claim C8: retrieval degrades to empty, filters invalid positions -/

/-- When every raw search position is at least `-1` (the faiss contract:
valid positions or the `-1` sentinel), the gathering loop never raises,
and every gathered entry is the metadata entry at a valid in-range
position occurring among the search positions. -/
theorem gatherResults_sound {β : Type} (metadata : List β) :
    ∀ idxs : List Int, (∀ i ∈ idxs, -1 ≤ i) →
      ∃ rs, gatherResults metadata idxs = some rs ∧
        ∀ m ∈ rs, ∃ p : Nat, (p : Int) ∈ idxs ∧ p < metadata.length ∧
          metadata.get? p = some m := by
  intro idxs
  induction idxs with
  | nil => exact fun _ => ⟨[], rfl, by simp⟩
  | cons idx rest ih =>
    intro hall
    obtain ⟨rs', hrs', hmem'⟩ := ih (fun i hi => hall i (List.mem_cons_of_mem idx hi))
    by_cases hc : idx ≠ -1 ∧ idx < (metadata.length : Int)
    · have h0 : 0 ≤ idx := by
        have := hall idx (List.mem_cons_self idx rest)
        omega
      have hlt : idx.toNat < metadata.length := by omega
      have hget : pyGetElem metadata idx = metadata.get? idx.toNat := by
        simp only [pyGetElem]
        rw [if_neg (show ¬ idx < 0 by omega), if_pos h0]
      refine ⟨metadata.get ⟨idx.toNat, hlt⟩ :: rs', ?_, ?_⟩
      · simp only [gatherResults, if_pos hc, hget, List.get?_eq_get hlt, hrs']
      · intro x hx
        rcases List.mem_cons.1 hx with rfl | hx'
        · exact ⟨idx.toNat, by simp [Int.toNat_of_nonneg h0], hlt,
            List.get?_eq_get hlt⟩
        · obtain ⟨p, hp1, hp2, hp3⟩ := hmem' x hx'
          exact ⟨p, List.mem_cons_of_mem idx hp1, hp2, hp3⟩
    · refine ⟨rs', by simp only [gatherResults, if_neg hc, hrs'], ?_⟩
      intro x hx
      obtain ⟨p, hp1, hp2, hp3⟩ := hmem' x hx
      exact ⟨p, List.mem_cons_of_mem idx hp1, hp2, hp3⟩

/-- Claim C8: if the query-embedding call or the index search raises,
`retrieve_context` returns the empty list instead of propagating; on
success (with search positions obeying the faiss contract of being `≥ -1`)
every returned entry is a metadata entry at a valid position, the `-1`
sentinel and out-of-range positions having been dropped. -/
theorem retrieve_context_spec {α β : Type} (embedQ : String → Option α)
    (search : α → Nat → Option (List Int)) (query : String)
    (metadata : List β) (k : Nat) :
    (embedQ (cleanText query) = none →
      retrieve_context embedQ search query metadata k = []) ∧
    (∀ qv, embedQ (cleanText query) = some qv → search qv k = none →
      retrieve_context embedQ search query metadata k = []) ∧
    (∀ qv idxs, embedQ (cleanText query) = some qv → search qv k = some idxs →
      (∀ i ∈ idxs, -1 ≤ i) →
      ∀ m ∈ retrieve_context embedQ search query metadata k,
        ∃ p : Nat, (p : Int) ∈ idxs ∧ p < metadata.length ∧
          metadata.get? p = some m) := by
  refine ⟨?_, ?_, ?_⟩
  · intro h
    simp [retrieve_context, h]
  · intro qv h1 h2
    simp [retrieve_context, h1, h2]
  · intro qv idxs h1 h2 hall m hm
    obtain ⟨rs, hrs, hmem⟩ := gatherResults_sound metadata idxs hall
    simp only [retrieve_context, h1, h2, hrs] at hm
    exact hmem m hm

/-- Concrete instantiation of `retrieve_context_spec`: a raising embedding
call yields an empty result, and a successful search row `[1, -1, 5]`
against two metadata entries yields only entries at valid positions. -/
theorem retrieve_context_spec_witness :
    (retrieve_context (fun _ => (none : Option Nat))
        (fun _ _ => some [0]) "q" ["m0", "m1"] 5 = []) ∧
    (∀ m ∈ retrieve_context (fun _ => some 0)
        (fun _ _ => some [1, -1, 5]) "q" ["m0", "m1"] 5,
      ∃ p : Nat, (p : Int) ∈ [1, -1, 5] ∧ p < (["m0", "m1"] : List String).length ∧
        (["m0", "m1"] : List String).get? p = some m) := by
  constructor
  · exact (retrieve_context_spec (fun _ => (none : Option Nat))
      (fun _ _ => some [0]) "q" ["m0", "m1"] 5).1 rfl
  · exact (retrieve_context_spec (fun _ => some 0)
      (fun _ _ => some [1, -1, 5]) "q" ["m0", "m1"] 5).2.2 0 [1, -1, 5] rfl rfl
      (by decide)

/-! ## Claims C3 and C10: rebuild task frame properties -/

/-- Frame lemma for the scan/chunk/index/reload steps: they never touch
the config (in memory or on disk), and whenever they end in the `error`
state the in-memory index and metadata are exactly the input ones (only
the `success` exit swaps them). -/
theorem runRebuildSteps_frame {ι : Type} (env : RebuildEnv ι) (fuel : Nat)
    (s s1 : ServerState ι) (h : runRebuildSteps env fuel s = some s1) :
    s1.config = s.config ∧ s1.disk_config = s.disk_config ∧
    (s1.rebuild_status = RebuildStatus.error →
      s1.index = s.index ∧ s1.metadata = s.metadata) := by
  unfold runRebuildSteps at h
  split at h
  · injection h with h
    subst h
    exact ⟨rfl, rfl, fun _ => ⟨rfl, rfl⟩⟩
  · split at h
    · injection h with h
      subst h
      exact ⟨rfl, rfl, fun _ => ⟨rfl, rfl⟩⟩
    · split at h
      · injection h with h
        subst h
        exact ⟨rfl, rfl, fun _ => ⟨rfl, rfl⟩⟩
      · split at h
        · exact absurd h (by simp)
        · split at h
          · injection h with h
            subst h
            exact ⟨rfl, rfl, fun _ => ⟨rfl, rfl⟩⟩
          · split at h
            · injection h with h
              subst h
              exact ⟨rfl, rfl, fun _ => ⟨rfl, rfl⟩⟩
            · injection h with h
              subst h
              exact ⟨rfl, rfl, fun hco => absurd hco (by simp)⟩

/-- Claim C3: any execution of `run_rebuild_task` that terminates in the
`error` state leaves the in-memory index and metadata references exactly
as they were before the rebuild attempt; no partial swap occurs. -/
theorem run_rebuild_task_error_keeps_index {ι : Type} (env : RebuildEnv ι)
    (fuel : Nat) (fp : Option String) (s0 s1 : ServerState ι)
    (hrun : run_rebuild_task env fuel fp s0 = some s1)
    (herr : s1.rebuild_status = RebuildStatus.error) :
    s1.index = s0.index ∧ s1.metadata = s0.metadata := by
  unfold run_rebuild_task at hrun
  rcases fp with - | f
  · exact (runRebuildSteps_frame env fuel _ s1 hrun).2.2 herr
  · simp only at hrun
    split at hrun
    · split at hrun
      · injection hrun with hrun
        subst hrun
        exact ⟨rfl, rfl⟩
      · exact (runRebuildSteps_frame env fuel _ s1 hrun).2.2 herr
    · exact (runRebuildSteps_frame env fuel _ s1 hrun).2.2 herr

/-- Witness for `run_rebuild_task_error_keeps_index`: a rebuild whose file
scan raises ends in `error` and leaves the loaded index `some 7` and
metadata `some []` untouched. -/
theorem run_rebuild_task_error_keeps_index_witness :
    run_rebuild_task (ι := Nat)
        ⟨fun _ _ => Except.error "boom", fun _ => Except.ok (), Except.error "x"⟩ 1 none
        ⟨some ⟨"docs", 1000, 200, "m", "c", [], "u", "k"⟩, some 7, some [], some (),
          RebuildStatus.idle, "", none⟩
      = some ⟨some ⟨"docs", 1000, 200, "m", "c", [], "u", "k"⟩, some 7, some [], some (),
          RebuildStatus.error, "Error: boom", none⟩ ∧
    (some 7 = some 7 ∧ some ([] : List Chunk) = some []) := by
  refine ⟨rfl, ?_⟩
  exact run_rebuild_task_error_keeps_index
    ⟨fun _ _ => Except.error "boom", fun _ => Except.ok (), Except.error "x"⟩ 1 none
    ⟨some ⟨"docs", 1000, 200, "m", "c", [], "u", "k"⟩, some 7, some [], some (),
      RebuildStatus.idle, "", none⟩
    ⟨some ⟨"docs", 1000, 200, "m", "c", [], "u", "k"⟩, some 7, some [], some (),
      RebuildStatus.error, "Error: boom", none⟩ rfl rfl

/-- Claim C10 (amended): when a config is loaded and the rebuild request
supplies a folder path that is non-empty after stripping whitespace, the
task rewrites the in-memory `folder_path` to the stripped path and
persists the config via `save_config`, and the file scan is performed
against the new path only; any terminating run, in particular one ending
in `error`, leaves the new path in place (the config is not restored). -/
theorem run_rebuild_task_persists_new_folder {ι : Type} (env : RebuildEnv ι)
    (fuel : Nat) (f : String) (s0 : ServerState ι) (cfg : RAGConfig)
    (hcfg : s0.config = some cfg) (hf : f ≠ "") (hstrip : pyStrip f ≠ "") :
    (∀ s1, run_rebuild_task env fuel (some f) s0 = some s1 →
      s1.config = some { cfg with folder_path := pyStrip f } ∧
      s1.disk_config = save_config { cfg with folder_path := pyStrip f }) ∧
    (∀ g : String → List String → Except String (List Doc),
      (∀ ig, g (pyStrip f) ig = env.load_files (pyStrip f) ig) →
      run_rebuild_task { env with load_files := g } fuel (some f) s0
        = run_rebuild_task env fuel (some f) s0) := by
  constructor
  · intro s1 hrun
    unfold run_rebuild_task at hrun
    simp only [if_pos (And.intro hf hstrip), hcfg] at hrun
    have := runRebuildSteps_frame env fuel _ s1 hrun
    exact ⟨this.1, this.2.1⟩
  · intro g hg
    unfold run_rebuild_task
    simp only [if_pos (And.intro hf hstrip), hcfg]
    unfold runRebuildSteps
    simp only
    rw [hg]

/-- Counterexample to claim C10 as stated: the request path `" "` is a
non-empty string, yet (its `strip()` being empty) the task leaves both the
in-memory config and the persisted config untouched — here the old folder
path `old` survives a rebuild that ends in `error`. -/
theorem run_rebuild_task_blank_path_not_persisted :
    run_rebuild_task (ι := Nat)
        ⟨fun _ _ => Except.error "nope", fun _ => Except.ok (), Except.error "x"⟩ 1 (some " ")
        ⟨some ⟨"old", 1000, 200, "m", "c", [], "u", "k"⟩, none, none, some (),
          RebuildStatus.idle, "", none⟩
      = some ⟨some ⟨"old", 1000, 200, "m", "c", [], "u", "k"⟩, none, none, some (),
          RebuildStatus.error, "Error: nope", none⟩ := by
  rfl

/-- Witness for `run_rebuild_task_persists_new_folder`: with a loaded
config whose folder path is `old`, a rebuild given the path `" new "` ends
in `error` (the scan raises) but both the in-memory and the saved config
now carry the stripped path `new`. -/
theorem run_rebuild_task_persists_new_folder_witness :
    run_rebuild_task (ι := Nat)
        ⟨fun _ _ => Except.error "nope", fun _ => Except.ok (), Except.error "x"⟩ 1 (some " new ")
        ⟨some ⟨"old", 1000, 200, "m", "c", [], "u", "k"⟩, none, none, some (),
          RebuildStatus.idle, "", none⟩
      = some ⟨some ⟨"new", 1000, 200, "m", "c", [], "u", "k"⟩, none, none, some (),
          RebuildStatus.error, "Error: nope", some ⟨"new", 1000, 200, "m", "c", [], "u", "k"⟩⟩ ∧
    (some (⟨"new", 1000, 200, "m", "c", [], "u", "k"⟩ : RAGConfig)
        = some { (⟨"old", 1000, 200, "m", "c", [], "u", "k"⟩ : RAGConfig) with
            folder_path := pyStrip " new " } ∧
      some (⟨"new", 1000, 200, "m", "c", [], "u", "k"⟩ : RAGConfig)
        = save_config { (⟨"old", 1000, 200, "m", "c", [], "u", "k"⟩ : RAGConfig) with
            folder_path := pyStrip " new " }) := by
  constructor
  · rfl
  · exact (run_rebuild_task_persists_new_folder (ι := Nat)
      ⟨fun _ _ => Except.error "nope", fun _ => Except.ok (), Except.error "x"⟩ 1 " new "
      ⟨some ⟨"old", 1000, 200, "m", "c", [], "u", "k"⟩, none, none, some (),
        RebuildStatus.idle, "", none⟩
      ⟨"old", 1000, 200, "m", "c", [], "u", "k"⟩ rfl (by decide) (by decide)).1
      ⟨some ⟨"new", 1000, 200, "m", "c", [], "u", "k"⟩, none, none, some (),
        RebuildStatus.error, "Error: nope", some ⟨"new", 1000, 200, "m", "c", [], "u", "k"⟩⟩
      rfl

/-! ## Characterization of chunking for valid parameters -/

/-- For valid parameters (`0 < chunk_size`, `0 ≤ overlap < chunk_size`)
and enough fuel, the window loop terminates and produces exactly the
slices `[a, min (a + chunk_size) len)` for the arithmetic progression of
starts computed by `spanStarts` with stride `chunk_size - overlap`. -/
theorem chunkDocLoop_valid (size ov : Int) (src : String) (text : List Char)
    (hs : 0 < size) (ho : 0 ≤ ov) (hov : ov < size) :
    ∀ (fuel : Nat) (st : Nat), text.length - st < fuel →
      chunkDocLoop size ov src text (st : Int) fuel
        = some ((spanStarts (size.toNat - ov.toNat) text.length st).map
            fun a => ⟨sliceN text a (min (a + size.toNat) text.length), src⟩) := by
  intro fuel
  induction fuel with
  | zero => intro st h; omega
  | succ n ih =>
    intro st hfu
    have hstrideN : 0 < size.toNat - ov.toNat := by omega
    simp only [chunkDocLoop]
    by_cases hlt : st < text.length
    · rw [if_pos (show (st : Int) < (text.length : Int) by omega)]
      have h1 : pyIdx text.length (st : Int) = st := by
        simp only [pyIdx]
        rw [if_neg (show ¬ (st : Int) < 0 by omega)]
        omega
      have h2 : pyIdx text.length (min ((st : Int) + size) (text.length : Int))
          = min (st + size.toNat) text.length := by
        simp only [pyIdx]
        rw [if_neg (show ¬ min ((st : Int) + size) (text.length : Int) < 0 by omega)]
        omega
      have hslice : pySlice text (st : Int) (min ((st : Int) + size) (text.length : Int))
          = sliceN text st (min (st + size.toNat) text.length) := by
        simp only [pySlice, sliceN, h1, h2]
      by_cases hend : text.length ≤ st + (size.toNat - ov.toNat)
      · rw [if_pos (show (text.length : Int) ≤ (st : Int) + (size - ov) by omega)]
        rw [spanStarts_eq, if_pos (And.intro hstrideN hlt), spanStarts_eq,
          if_neg (show ¬ (0 < size.toNat - ov.toNat ∧
            st + (size.toNat - ov.toNat) < text.length) by omega)]
        simp [hslice]
      · rw [if_neg (show ¬ (text.length : Int) ≤ (st : Int) + (size - ov) by omega)]
        have hcast : (st : Int) + (size - ov)
            = ((st + (size.toNat - ov.toNat) : Nat) : Int) := by omega
        rw [hcast, ih (st + (size.toNat - ov.toNat)) (by omega)]
        conv_rhs => rw [spanStarts_eq]
        rw [if_pos (And.intro hstrideN hlt)]
        simp [hslice]
    · rw [if_neg (show ¬ (st : Int) < (text.length : Int) by omega)]
      rw [spanStarts_eq, if_neg (show ¬ (0 < size.toNat - ov.toNat ∧ st < text.length) by omega)]
      rfl

/-- `chunk_text` on a single document, valid parameters, enough fuel:
the chunk list is the window slices at the `spanStarts` offsets. -/
theorem chunk_text_single (size ov : Int) (src : String) (text : List Char)
    (hs : 0 < size) (ho : 0 ≤ ov) (hov : ov < size) (fuel : Nat)
    (hfu : text.length < fuel) :
    chunk_text [⟨src, text⟩] size ov fuel
      = some ((spanStarts (size.toNat - ov.toNat) text.length 0).map
          fun a => ⟨sliceN text a (min (a + size.toNat) text.length), src⟩) := by
  have h0 : ((0 : Nat) : Int) = (0 : Int) := rfl
  simp only [chunk_text]
  rw [show (0 : Int) = ((0 : Nat) : Int) from rfl,
    chunkDocLoop_valid size ov src text hs ho hov fuel 0 (by omega)]
  simp

/-- Coverage: when `0 < stride ≤ size`, the windows at the `spanStarts`
offsets cover exactly the positions from `start` to the end of the
document. -/
theorem spanUnion_spanStarts (size stride len : Nat) (h1 : 0 < stride)
    (h2 : stride ≤ size) :
    ∀ start, spanUnion size len (spanStarts stride len start)
      = Finset.Ico start len := by
  have key : ∀ n start, len - start ≤ n →
      spanUnion size len (spanStarts stride len start) = Finset.Ico start len := by
    intro n
    induction n with
    | zero =>
      intro start hle
      rw [spanStarts_eq, if_neg (by omega)]
      rw [show Finset.Ico start len = ∅ from Finset.Ico_eq_empty (by omega)]
      rfl
    | succ n ih =>
      intro start hle
      by_cases hlt : start < len
      · rw [spanStarts_eq, if_pos (And.intro h1 hlt)]
        show Finset.Ico start (min (start + size) len) ∪
          spanUnion size len (spanStarts stride len (start + stride)) = Finset.Ico start len
        rw [ih (start + stride) (by omega)]
        ext x
        simp only [Finset.mem_union, Finset.mem_Ico]
        omega
      · rw [spanStarts_eq, if_neg (by omega)]
        rw [show Finset.Ico start len = ∅ from Finset.Ico_eq_empty (by omega)]
        rfl
  exact fun start => key (len - start) start (Nat.le_refl _)

/-- Consecutive `spanStarts` offsets differ by exactly `stride`. -/
theorem spanStarts_get_succ (stride len : Nat) :
    ∀ (i start a b : Nat),
      (spanStarts stride len start).get? i = some a →
      (spanStarts stride len start).get? (i + 1) = some b →
      b = a + stride := by
  intro i
  induction i with
  | zero =>
    intro start a b ha hb
    by_cases hc : 0 < stride ∧ start < len
    · have he := spanStarts_eq stride len start
      rw [if_pos hc] at he
      rw [he] at ha hb
      rw [List.get?_cons_zero, Option.some.injEq] at ha
      rw [List.get?_cons_succ] at hb
      by_cases hc2 : 0 < stride ∧ start + stride < len
      · have he2 := spanStarts_eq stride len (start + stride)
        rw [if_pos hc2] at he2
        rw [he2, List.get?_cons_zero, Option.some.injEq] at hb
        omega
      · have he2 := spanStarts_eq stride len (start + stride)
        rw [if_neg hc2] at he2
        rw [he2] at hb
        exact absurd hb (by simp)
    · have he := spanStarts_eq stride len start
      rw [if_neg hc] at he
      rw [he] at ha
      exact absurd ha (by simp)
  | succ j ih =>
    intro start a b ha hb
    by_cases hc : 0 < stride ∧ start < len
    · have he := spanStarts_eq stride len start
      rw [if_pos hc] at he
      rw [he, List.get?_cons_succ] at ha hb
      exact ih (start + stride) a b ha hb
    · have he := spanStarts_eq stride len start
      rw [if_neg hc] at he
      rw [he] at ha
      exact absurd ha (by simp)

/-! ## Claim C5: coverage and overlap of chunk spans -/

/-- Claim C5 (amended): for `0 < overlap < chunk_size` the chunk spans of
a document cover `[0, len)` exactly, and any two consecutive chunks whose
earlier chunk is not clamped by the document end (`start + chunk_size ≤
len`) share exactly `overlap` character positions; pairs whose earlier
chunk is clamped — which always includes the final pair, but can also
occur before it — may share fewer. -/
theorem chunk_text_coverage_and_overlap (size ov : Int) (src : String)
    (text : List Char) (hs : 0 < size) (ho : 0 < ov) (hov : ov < size)
    (fuel : Nat) (hfu : text.length < fuel) :
    ∃ starts : List Nat,
      chunk_text [⟨src, text⟩] size ov fuel
        = some (starts.map fun a =>
            ⟨sliceN text a (min (a + size.toNat) text.length), src⟩) ∧
      spanUnion size.toNat text.length starts = Finset.Ico 0 text.length ∧
      (∀ i a b : Nat, starts.get? i = some a → starts.get? (i + 1) = some b →
        b = a + (size.toNat - ov.toNat) ∧
        (a + size.toNat ≤ text.length →
          (Finset.Ico a (min (a + size.toNat) text.length) ∩
            Finset.Ico b (min (b + size.toNat) text.length)).card = ov.toNat)) := by
  refine ⟨spanStarts (size.toNat - ov.toNat) text.length 0,
    chunk_text_single size ov src text hs (by omega) hov fuel hfu,
    spanUnion_spanStarts size.toNat (size.toNat - ov.toNat) text.length
      (by omega) (by omega) 0, ?_⟩
  intro i a b ha hb
  have hstep := spanStarts_get_succ (size.toNat - ov.toNat) text.length i 0 a b ha hb
  refine ⟨hstep, ?_⟩
  intro hfull
  have hb1 : 0 < ov.toNat := by omega
  have hb2 : ov.toNat < size.toNat := by omega
  rw [Finset.Ico_inter_Ico, Nat.card_Ico]
  omega

/-- Counterexample to claim C5 as stated: for `abcdef`, `chunk_size = 4`,
`overlap = 3`, the chunks at spans `[3, 6)` (the chunk `def`) and `[4, 6)`
(the chunk `ef`) are consecutive, neither is the final chunk `f`, and they
share only 2 positions, not `overlap = 3`. -/
theorem chunk_text_clamped_pair_before_final :
    chunk_text [⟨"p", ['a', 'b', 'c', 'd', 'e', 'f']⟩] 4 3 10
      = some [⟨['a', 'b', 'c', 'd'], "p"⟩, ⟨['b', 'c', 'd', 'e'], "p"⟩,
          ⟨['c', 'd', 'e', 'f'], "p"⟩, ⟨['d', 'e', 'f'], "p"⟩,
          ⟨['e', 'f'], "p"⟩, ⟨['f'], "p"⟩] ∧
    (Finset.Ico 3 (min (3 + 4) 6) ∩ Finset.Ico 4 (min (4 + 4) 6)).card = 2 ∧
    (2 : Nat) ≠ 3 := by
  refine ⟨by rfl, by decide, by decide⟩

/-- Witness for `chunk_text_coverage_and_overlap` at the document `abc`
with `chunk_size = 2`, `overlap = 1`. -/
theorem chunk_text_coverage_and_overlap_witness :
    ∃ starts : List Nat,
      chunk_text [⟨"p", ['a', 'b', 'c']⟩] 2 1 4
        = some (starts.map fun a =>
            ⟨sliceN ['a', 'b', 'c'] a
              (min (a + (2 : Int).toNat) (['a', 'b', 'c'] : List Char).length), "p"⟩) ∧
      spanUnion (2 : Int).toNat (['a', 'b', 'c'] : List Char).length starts
        = Finset.Ico 0 (['a', 'b', 'c'] : List Char).length ∧
      (∀ i a b : Nat, starts.get? i = some a → starts.get? (i + 1) = some b →
        b = a + ((2 : Int).toNat - (1 : Int).toNat) ∧
        (a + (2 : Int).toNat ≤ (['a', 'b', 'c'] : List Char).length →
          (Finset.Ico a (min (a + (2 : Int).toNat) (['a', 'b', 'c'] : List Char).length) ∩
            Finset.Ico b (min (b + (2 : Int).toNat) (['a', 'b', 'c'] : List Char).length)).card
            = (1 : Int).toNat)) :=
  chunk_text_coverage_and_overlap 2 1 "p" ['a', 'b', 'c']
    (by decide) (by decide) (by decide) 4 (by decide)

/-! ## Claim C6: documents shorter than the window -/

/-- Claim C6 (amended): a non-empty document yields exactly one chunk (the
whole document) precisely when its length is at most the window stride
`chunk_size - overlap`; a document longer than the stride — even one
shorter than `chunk_size` — yields more than one chunk. -/
theorem chunk_text_one_chunk_iff (size ov : Int) (src : String)
    (text : List Char) (hs : 0 < size) (ho : 0 ≤ ov) (hov : ov < size)
    (hne : text ≠ []) (fuel : Nat) (hfu : text.length < fuel) :
    chunk_text [⟨src, text⟩] size ov fuel = some [⟨text, src⟩] ↔
      text.length ≤ size.toNat - ov.toNat := by
  have hlen : 0 < text.length := List.length_pos.2 hne
  rw [chunk_text_single size ov src text hs ho hov fuel hfu]
  constructor
  · intro h
    by_contra hgt
    push_neg at hgt
    rw [spanStarts_eq, if_pos (And.intro (by omega) hlen)] at h
    rw [spanStarts_eq, if_pos (And.intro (by omega) (by omega))] at h
    simp at h
  · intro hle
    rw [spanStarts_eq, if_pos (And.intro (by omega) hlen)]
    rw [spanStarts_eq, if_neg (by omega)]
    have hmin : min (0 + size.toNat) text.length = text.length := by omega
    simp [sliceN, hmin]
    omega

/-- Counterexample to claim C6 as stated: the document `abcde` has length
5, strictly less than `chunk_size = 10`, and `overlap = 8` satisfies
`0 ≤ overlap < chunk_size`, yet `chunk_text` yields three chunks, not
one. -/
theorem chunk_text_short_doc_three_chunks :
    chunk_text [⟨"p", ['a', 'b', 'c', 'd', 'e']⟩] 10 8 10
      = some [⟨['a', 'b', 'c', 'd', 'e'], "p"⟩, ⟨['c', 'd', 'e'], "p"⟩, ⟨['e'], "p"⟩] ∧
    ([⟨['a', 'b', 'c', 'd', 'e'], "p"⟩, ⟨['c', 'd', 'e'], "p"⟩,
        ⟨['e'], "p"⟩] : List Chunk).length ≠ 1 := by
  exact ⟨rfl, by decide⟩

/-- Witness for `chunk_text_one_chunk_iff`: the document `ab` with
`chunk_size = 5`, `overlap = 2` (stride 3) yields exactly the one chunk
`ab`. -/
theorem chunk_text_one_chunk_iff_witness :
    chunk_text [⟨"p", ['a', 'b']⟩] 5 2 5 = some [⟨['a', 'b'], "p"⟩] ↔
      (['a', 'b'] : List Char).length ≤ (5 : Int).toNat - (2 : Int).toNat :=
  chunk_text_one_chunk_iff 5 2 "p" ['a', 'b']
    (by decide) (by decide) (by decide) (by decide) 5 (by decide)

/-! ## Claim C7: empty and whitespace-only documents -/

/-- Claim C7 (amended): a document with empty content yields zero chunks,
but a whitespace-only document with non-empty content is chunked like any
other text and yields at least one chunk (`chunk_text` never inspects the
characters; whitespace-only documents are instead filtered out upstream by
`load_files`, which skips documents whose stripped content is empty). -/
theorem chunk_text_empty_vs_whitespace (size ov : Int) (src : String)
    (fuel : Nat) :
    (0 < fuel → chunk_text [⟨src, []⟩] size ov fuel = some []) ∧
    (∀ text : List Char, text ≠ [] → (∀ c ∈ text, isPySpace c = true) →
      0 < size → 0 ≤ ov → ov < size → text.length < fuel →
      ∃ cs, chunk_text [⟨src, text⟩] size ov fuel = some cs ∧ cs ≠ []) := by
  constructor
  · intro hfu
    obtain ⟨n, rfl⟩ : ∃ n, fuel = n + 1 := ⟨fuel - 1, by omega⟩
    simp only [chunk_text, chunkDocLoop]
    norm_num
  · intro text hne hws hs ho hov hfu
    refine ⟨_, chunk_text_single size ov src text hs ho hov fuel hfu, ?_⟩
    have hlen : 0 < text.length := List.length_pos.2 hne
    intro hnil
    rw [spanStarts_eq, if_pos (And.intro (by omega) hlen)] at hnil
    simp at hnil

/-- Counterexample to claim C7 as stated: a document whose content is the
single space character (whitespace-only, non-empty) yields one chunk, not
zero. -/
theorem chunk_text_whitespace_doc_one_chunk :
    chunk_text [⟨"p", [' ']⟩] 1000 200 2 = some [⟨[' '], "p"⟩] ∧
    ([⟨[' '], "p"⟩] : List Chunk).length ≠ 0 := by
  exact ⟨rfl, by decide⟩

/-- Witness for `chunk_text_empty_vs_whitespace`: the empty document gives
zero chunks; the one-space document gives a non-empty chunk list. -/
theorem chunk_text_empty_vs_whitespace_witness :
    chunk_text [⟨"p", ([] : List Char)⟩] 1000 200 1 = some [] ∧
    ∃ cs, chunk_text [⟨"p", [' ']⟩] 1000 200 2 = some cs ∧ cs ≠ [] :=
  ⟨(chunk_text_empty_vs_whitespace 1000 200 "p" 1).1 (by decide),
   (chunk_text_empty_vs_whitespace 1000 200 "p" 2).2 [' ']
     (by decide) (by decide) (by decide) (by decide) (by decide) (by decide)⟩
